import Mathlib

/-!
# Bootstrap of the single-page application (`frontend/src/main.js`)

The source file is seven lines: four static imports (of the named export
`createApp` of `vue`, of `./style.css` for its effect, of the default export `App`
of `./App.vue`, and of `@mdi/font/css/materialdesignicons.css` for its effect),
a blank line, and the module body

    const app = createApp(App)
    app.mount('#app')

Everything it does is delegated to external collaborators: the module loader of
the host runtime and the UI framework.  They are not part of the repository, so
the embedding takes them as an explicit interface (`Host`) and the program is a
function of that interface and of the world state it runs in.
-/

namespace Bootstrap

/-! ## Execution model -/

/-- One JavaScript step run in a world state: it either returns a value or throws,
and in both cases leaves a world state behind (effects performed before a throw
persist). -/
abbrev Step (σ Err α : Type) := σ → Except Err α × σ

/-- Sequencing of two steps, as in a statement list: the second step runs in the
state left by the first one, and a throw of the first one ends the execution
(the source has no `try`/`catch`). -/
def andThen {σ Err α β : Type} (m : Step σ Err α) (f : α → Step σ Err β) : Step σ Err β :=
  fun s =>
    match m s with
    | (.ok a, s') => f a s'
    | (.error e, s') => (.error e, s')

/-- The external collaborators of `main.js`.

* `loadModules` is the load and link phase of the module loader: resolving and
  fetching the modules that the static imports of a module request, before any of
  them is evaluated (it throws when one of them cannot be resolved or fetched);
* `evaluateModule` is the evaluation of one imported module (it may throw, and it
  may change the world, for instance by adding rules to the style cascade);
* `App` is the default export of `./App.vue`, the root component definition;
* `createApp` is the named export of `vue`;
* `mount`, `unmount` and `usePlugin` are methods of the application object that
  `createApp` returns (`app.mount`, `app.unmount`, `app.use`).  `main.js` discards
  the value returned by `mount`, so it is not represented. -/
structure Host (σ Comp Inst Plugin Err : Type) where
  loadModules : List String → Step σ Err Unit
  evaluateModule : String → Step σ Err Unit
  App : Comp
  createApp : Comp → Step σ Err Inst
  mount : Inst → String → Step σ Err Unit
  unmount : Inst → Step σ Err Unit
  usePlugin : Inst → Plugin → Step σ Err Unit

section Program

variable {σ Comp Inst Plugin Err : Type}

/-- Lines 6 and 7 of `main.js`, the module body:
`const app = createApp(App)` followed by `app.mount('#app')`. -/
def bootstrap (h : Host σ Comp Inst Plugin Err) : Step σ Err Unit :=
  andThen (h.createApp h.App) fun app =>
  h.mount app "#app"

/-- The specifiers of the four static imports of `main.js`, in the order in which
the source lists them. -/
def requestedModules : List String :=
  ["vue", "./style.css", "./App.vue", "@mdi/font/css/materialdesignicons.css"]

/-- The whole module `main.js`.  Static imports are hoisted and handled in two
phases.  First the four requested modules are resolved and fetched; when one of
them cannot be, the module fails before anything is evaluated.  Then the four
modules are evaluated in the order of the import statements, and one whose
evaluation throws ends the evaluation of the importing module.  The module body
runs last. -/
def main (h : Host σ Comp Inst Plugin Err) : Step σ Err Unit :=
  andThen (h.loadModules requestedModules) fun _ =>
  andThen (h.evaluateModule "vue") fun _ =>
  andThen (h.evaluateModule "./style.css") fun _ =>
  andThen (h.evaluateModule "./App.vue") fun _ =>
  andThen (h.evaluateModule "@mdi/font/css/materialdesignicons.css") fun _ =>
  bootstrap h

/-- The module `main.js` with the two presentational asset declarations
(`import './style.css'` and `import '@mdi/font/css/materialdesignicons.css'`)
removed, everything else unchanged.  This is not a function of the source: it is
the modified program that the asset-independence property compares `main` with. -/
def mainWithoutAssets (h : Host σ Comp Inst Plugin Err) : Step σ Err Unit :=
  andThen (h.loadModules ["vue", "./App.vue"]) fun _ =>
  andThen (h.evaluateModule "vue") fun _ =>
  andThen (h.evaluateModule "./App.vue") fun _ =>
  bootstrap h

/-- The specifiers of the two presentational assets declared by `main.js`. -/
def assetSpecifiers : List String :=
  ["./style.css", "@mdi/font/css/materialdesignicons.css"]

end Program

/-! ## Observing the calls made on the collaborators -/

/-- A call made on one of the external collaborators. -/
inductive Call (Comp Inst Plugin : Type) where
  | loadModules (specifiers : List String)
  | evaluateModule (specifier : String)
  | createApp (root : Comp)
  | mount (app : Inst) (selector : String)
  | unmount (app : Inst)
  | usePlugin (app : Inst) (plugin : Plugin)
  deriving DecidableEq, Repr

/-- A call together with the error it threw, if it threw. -/
structure Event (Comp Inst Plugin Err : Type) where
  call : Call Comp Inst Plugin
  failure : Option Err
  deriving DecidableEq, Repr

/-- The error of an outcome, if it is a throw. -/
def failureOf {Err α : Type} : Except Err α → Option Err
  | .ok _ => none
  | .error e => some e

section Trace

variable {σ Comp Inst Plugin Err : Type}

/-- Run a collaborator's operation and append the call and its outcome to the log
carried next to the world state. -/
def logged {α : Type} (c : Call Comp Inst Plugin) (m : Step σ Err α) :
    Step (σ × List (Event Comp Inst Plugin Err)) Err α :=
  fun w =>
    match m w.1 with
    | (r, s') => (r, (s', w.2 ++ [⟨c, failureOf r⟩]))

/-- The same collaborators, instrumented: every operation behaves as before and
records that it was called.  Running a program against `traced h` yields the
sequence of calls the program makes on `h`. -/
def traced (h : Host σ Comp Inst Plugin Err) :
    Host (σ × List (Event Comp Inst Plugin Err)) Comp Inst Plugin Err where
  loadModules ps := logged (.loadModules ps) (h.loadModules ps)
  evaluateModule p := logged (.evaluateModule p) (h.evaluateModule p)
  App := h.App
  createApp c := logged (.createApp c) (h.createApp c)
  mount i sel := logged (.mount i sel) (h.mount i sel)
  unmount i := logged (.unmount i) (h.unmount i)
  usePlugin i p := logged (.usePlugin i p) (h.usePlugin i p)

/-- The events of one execution of a program (given as a function of its
collaborators) from state `s`. -/
def eventsOf
    (prog : Host (σ × List (Event Comp Inst Plugin Err)) Comp Inst Plugin Err →
      Step (σ × List (Event Comp Inst Plugin Err)) Err Unit)
    (h : Host σ Comp Inst Plugin Err) (s : σ) : List (Event Comp Inst Plugin Err) :=
  (prog (traced h) (s, [])).2.2

/-- A call is one of the framework's operations (not one of the module loader's). -/
def Call.isFramework : Call Comp Inst Plugin → Bool
  | .loadModules _ => false
  | .evaluateModule _ => false
  | _ => true

/-- A call is the evaluation of a module. -/
def Call.isEvaluate : Call Comp Inst Plugin → Bool
  | .evaluateModule _ => true
  | _ => false

/-- A call is a `mount`. -/
def Call.isMount : Call Comp Inst Plugin → Bool
  | .mount _ _ => true
  | _ => false

/-- A call is an `unmount`. -/
def Call.isUnmount : Call Comp Inst Plugin → Bool
  | .unmount _ => true
  | _ => false

end Trace

/-! ## What the document looks like

The properties of the bootstrap are stated on a few observations of the world
state. Which world state the framework works on is not fixed by `main.js`, so the
observations are an interface too. -/

/-- Observations of the document and of the framework's objects.

* `matchCount s sel`: how many elements of the document match the selector;
* `contents s sel`: the contents of the element the selector designates, if any;
* `attached s sel`: the application instances mounted on that element;
* `render c`: the tree the framework renders for a root component definition;
* `rootOf i`: the root component an application instance was created from. -/
structure DomView (σ Comp Inst Tree : Type) where
  matchCount : σ → String → Nat
  contents : σ → String → Option Tree
  attached : σ → String → List Inst
  render : Comp → Tree
  rootOf : Inst → Comp

section Contract

variable {σ Comp Inst Plugin Err Tree : Type}

/-- Framework contract, construction does not touch the document: whatever
`createApp` does, the elements of the document and what is mounted on them are
as before. -/
def CreateAppKeepsDocument (h : Host σ Comp Inst Plugin Err) (v : DomView σ Comp Inst Tree) :
    Prop :=
  ∀ c s, v.matchCount (h.createApp c s).2 = v.matchCount s ∧
    v.attached (h.createApp c s).2 = v.attached s

/-- Framework contract, construction returns: `createApp c` returns an instance
whose root component is `c`. -/
def CreateAppReturns (h : Host σ Comp Inst Plugin Err) (v : DomView σ Comp Inst Tree) : Prop :=
  ∀ c s, ∃ i, (h.createApp c s).1 = .ok i ∧ v.rootOf i = c

/-- Framework contract, mounting renders: on a document where exactly one element
matches the selector and nothing is mounted on it, `mount` returns, and it leaves
the element with the rendered tree of the instance's root component as contents
and with that instance, and no other, attached. -/
def MountRenders (h : Host σ Comp Inst Plugin Err) (v : DomView σ Comp Inst Tree) : Prop :=
  ∀ i sel s, v.matchCount s sel = 1 → v.attached s sel = [] →
    (h.mount i sel s).1 = .ok () ∧
    v.contents (h.mount i sel s).2 sel = some (v.render (v.rootOf i)) ∧
    v.attached (h.mount i sel s).2 sel = [i]

end Contract

/-! ## The two-state lifecycle -/

/-- The lifecycle states of the bootstrapper. -/
inductive Phase where
  | unmounted
  | mounted
  deriving DecidableEq, Repr

/-- The lifecycle state a document is in: `mounted` when an application instance
is attached to the designated container, `unmounted` otherwise. -/
def DomView.phase {σ Comp Inst Tree : Type} (v : DomView σ Comp Inst Tree) (s : σ) : Phase :=
  if (v.attached s "#app").isEmpty then .unmounted else .mounted

/-! ## A small concrete framework

A reference instance of the interface, used to exhibit concrete executions.  It
stands for the module loader and for vue, which are not part of the repository,
and behaves as a production build of vue 3 does. -/

namespace Demo

/-- Root component definitions. -/
inductive Component where
  | App
  | Other
  deriving DecidableEq, Repr

/-- Rendered trees: what the page was served with, nothing, or the tree of a root
component. -/
inductive Tree where
  | placeholder
  | empty
  | rendered (c : Component)
  deriving DecidableEq, Repr

/-- Application instances: a serial number and the root component. -/
structure Instance where
  serial : Nat
  root : Component
  deriving DecidableEq, Repr

/-- Errors of the module loader. -/
inductive Error where
  | moduleNotFound (specifier : String)
  deriving DecidableEq, Repr

/-- An element of the document: the selector that designates it, its contents,
the instances mounted on it. -/
structure Element where
  selector : String
  contents : Tree
  apps : List Instance
  deriving DecidableEq, Repr

/-- The world: the elements of the document, the style sheets in the cascade, the
number of application instances created so far. -/
structure Doc where
  elements : List Element
  styles : List String
  created : Nat
  deriving DecidableEq, Repr

/-- The elements a selector matches, in document order. -/
def Doc.select (d : Doc) (sel : String) : List Element :=
  d.elements.filter fun el => el.selector == sel

/-- Modelled from the spec: the load phase of the host's module loader, which is
not under src/.  The requested modules are fetched before any of them is
evaluated; when one is among the `missing` ones the load fails with the error for
that module and the document is untouched. -/
def loadModules (missing : List String) (ps : List String) : Step Doc Error Unit :=
  fun d =>
    match ps.find? fun p => missing.contains p with
    | some p => (.error (.moduleNotFound p), d)
    | none => (.ok (), d)

/-- Modelled from the spec: the evaluation of an imported module, which is not
under src/.  Evaluating a style sheet adds it to the style cascade of the page
(the global style rules and font faces of the spec); evaluating another module
has no effect on the document. -/
def evaluateModule (p : String) : Step Doc Error Unit :=
  fun d =>
    if assetSpecifiers.contains p then (.ok (), { d with styles := d.styles ++ [p] })
    else (.ok (), d)

/-- Modelled from the spec: `createApp` of the framework (vue), which is not under
src/.  It returns a fresh application instance for the root component and does
not touch the document. -/
def createApp (c : Component) : Step Doc Error Instance :=
  fun d => (.ok ⟨d.created, c⟩, { d with created := d.created + 1 })

/-- Render an instance into the first element of a list that the selector
matches, replacing its contents and the instance it carries; a list without a
match is left as it is. -/
def mountOn (i : Instance) (sel : String) : List Element → List Element
  | [] => []
  | x :: rest =>
    if x.selector == sel then { x with contents := .rendered i.root, apps := [i] } :: rest
    else x :: mountOn i sel rest

/-- Modelled from the spec: `app.mount` of the framework (vue), which is not under
src/.  The rendered tree of the instance is attached to the first element the
selector matches, over whatever the element holds, another mounted instance
included.  When no element matches, the call returns without having mounted
anything: a production build of vue does not throw there and reports nothing (a
development build prints a warning and returns as well). -/
def mount (i : Instance) (sel : String) : Step Doc Error Unit :=
  fun d => (.ok (), { d with elements := mountOn i sel d.elements })

/-- Modelled from the spec: `app.unmount` of the framework (vue), which is not
under src/.  The call returns; the element that carries the instance, if there is
one, is left empty. -/
def unmount (i : Instance) : Step Doc Error Unit :=
  fun d =>
    (.ok (), { d with elements := d.elements.map fun x =>
      if x.apps.contains i then { x with contents := .empty, apps := [] } else x })

/-- The collaborators, with the given specifiers impossible to load. -/
def host (missing : List String) : Host Doc Component Instance Unit Error where
  loadModules := loadModules missing
  evaluateModule := evaluateModule
  App := .App
  createApp := createApp
  mount := mount
  unmount := unmount
  usePlugin _ _ := fun d => (.ok (), d)

/-- The observations of the document: the selector designates the first element it
matches. -/
def view : DomView Doc Component Instance Tree where
  matchCount d sel := (d.select sel).length
  contents d sel := (d.select sel).head?.map (·.contents)
  attached d sel := ((d.select sel).head?.map (·.apps)).getD []
  render c := .rendered c
  rootOf i := i.root

/-- A page with one empty container designated by the mount selector. -/
def page : Doc := { elements := [⟨"#app", .placeholder, []⟩], styles := [], created := 0 }

/-- A page without the container. -/
def pageWithoutContainer : Doc :=
  { elements := [⟨"#root", .placeholder, []⟩], styles := [], created := 0 }

/-- The page with a style sheet already in the cascade. -/
def styledPage : Doc := { page with styles := ["theme.css"] }

/-- The structure of the document, without the style cascade. -/
def structureOf (d : Doc) : List Element × Nat := (d.elements, d.created)

end Demo

/-! ## Auxiliary definitions for the statements -/

section Statements

variable {σ Comp Inst Plugin Err : Type}

/-- Two outcomes agree up to a view of the world state: same returned value or
same thrown error, and final states with the same view. -/
def Agree {D α : Type} (view : σ → D) (x y : Except Err α × σ) : Prop :=
  x.1 = y.1 ∧ view x.2 = view y.2

/-- The collaborators depend on the world state through a view only: run from two
states with the same view, each operation that `main.js` uses has the same
outcome and leaves states with the same view.  With the identity as view this
holds of every collaborator. -/
def RespectsView {D : Type} (h : Host σ Comp Inst Plugin Err) (view : σ → D) : Prop :=
  (∀ ps s t, view s = view t → Agree view (h.loadModules ps s) (h.loadModules ps t)) ∧
  (∀ p s t, view s = view t → Agree view (h.evaluateModule p s) (h.evaluateModule p t)) ∧
  (∀ c s t, view s = view t → Agree view (h.createApp c s) (h.createApp c t)) ∧
  (∀ i sel s t, view s = view t → Agree view (h.mount i sel s) (h.mount i sel t))

/-- The presentational assets load and are presentational only: requesting them
next to the other modules changes neither the outcome of the load phase nor the
view it leaves, and evaluating one of them returns and leaves the view of the
world state as it was. -/
def AssetsOnlyStyle {D : Type} (h : Host σ Comp Inst Plugin Err) (view : σ → D) : Prop :=
  (∀ s, Agree view (h.loadModules requestedModules s)
    (h.loadModules (requestedModules.filter fun p => !assetSpecifiers.contains p) s)) ∧
  (∀ p ∈ assetSpecifiers, ∀ s,
    (h.evaluateModule p s).1 = .ok () ∧ view (h.evaluateModule p s).2 = view s)

/-- The events of a second run of the module body, started in the state the first
run left. -/
def secondRunEvents (h : Host σ Comp Inst Plugin Err) (s : σ) :
    List (Event Comp Inst Plugin Err) :=
  eventsOf bootstrap h (bootstrap h s).2

end Statements

/-! ## Basic facts about the execution model -/

section Lemmas

variable {σ Comp Inst Plugin Err : Type}

theorem andThen_of_ok {α β : Type} (m : Step σ Err α) (f : α → Step σ Err β) (s : σ) (a : α)
    (hm : (m s).1 = .ok a) : andThen m f s = f a (m s).2 := by
  unfold andThen
  rcases hms : m s with ⟨r, s'⟩
  rw [hms] at hm
  cases r with
  | ok b => simp at hm; subst hm; rfl
  | error e => simp at hm

theorem andThen_of_error {α β : Type} (m : Step σ Err α) (f : α → Step σ Err β) (s : σ) (e : Err)
    (hm : (m s).1 = .error e) : andThen m f s = (.error e, (m s).2) := by
  unfold andThen
  rcases hms : m s with ⟨r, s'⟩
  rw [hms] at hm
  cases r with
  | ok b => simp at hm
  | error e' => simp at hm; subst hm; rfl

/-- An outcome is a return or a throw. -/
theorem outcome_cases {α : Type} (r : Except Err α) :
    (∃ a, r = .ok a) ∨ (∃ e, r = .error e) := by
  cases r with
  | ok a => exact Or.inl ⟨a, rfl⟩
  | error e => exact Or.inr ⟨e, rfl⟩

theorem failureOf_ok {α : Type} (a : α) : failureOf (Except.ok a : Except Err α) = none := rfl

theorem failureOf_error {α : Type} (e : Err) :
    failureOf (Except.error e : Except Err α) = some e := rfl

theorem logged_eq {α : Type} (c : Call Comp Inst Plugin) (m : Step σ Err α)
    (w : σ × List (Event Comp Inst Plugin Err)) :
    logged c m w = ((m w.1).1, ((m w.1).2, w.2 ++ [⟨c, failureOf (m w.1).1⟩])) := rfl

/-- The module body run against the instrumented collaborators: the outcome and
the final state are those of the plain run, and the log grows by the call to
`createApp` and, when that returned, by the call to `mount`. -/
theorem bootstrap_traced (h : Host σ Comp Inst Plugin Err) (s : σ)
    (log : List (Event Comp Inst Plugin Err)) :
    bootstrap (traced h) (s, log) =
      ((bootstrap h s).1, ((bootstrap h s).2, log ++
        match (h.createApp h.App s).1 with
        | .ok i => [⟨.createApp h.App, none⟩,
            ⟨.mount i "#app", failureOf (h.mount i "#app" (h.createApp h.App s).2).1⟩]
        | .error e => [⟨.createApp h.App, some e⟩])) := by
  rcases outcome_cases (h.createApp h.App s).1 with ⟨i, hi⟩ | ⟨e, he⟩
  · have ht : ((traced h).createApp (traced h).App (s, log)).1 = .ok i := hi
    rw [bootstrap, andThen_of_ok _ _ _ i ht, bootstrap, andThen_of_ok _ _ _ i hi, hi]
    simp [traced, logged_eq, hi, failureOf_ok]
  · have ht : ((traced h).createApp (traced h).App (s, log)).1 = .error e := he
    rw [bootstrap, andThen_of_error _ _ _ e ht, bootstrap, andThen_of_error _ _ _ e he, he]
    simp [traced, logged_eq, he, failureOf_error]

/-- The events of one run of the module body. -/
theorem eventsOf_bootstrap (h : Host σ Comp Inst Plugin Err) (s : σ) :
    eventsOf bootstrap h s =
      match (h.createApp h.App s).1 with
      | .ok i => [⟨.createApp h.App, none⟩,
          ⟨.mount i "#app", failureOf (h.mount i "#app" (h.createApp h.App s).2).1⟩]
      | .error e => [⟨.createApp h.App, some e⟩] := by
  simp [eventsOf, bootstrap_traced]

theorem bootstrap_of_returns (h : Host σ Comp Inst Plugin Err) (s : σ) (i : Inst)
    (hi : (h.createApp h.App s).1 = .ok i) :
    bootstrap h s = h.mount i "#app" (h.createApp h.App s).2 :=
  andThen_of_ok _ _ _ i hi

theorem bootstrap_of_throws (h : Host σ Comp Inst Plugin Err) (s : σ) (e : Err)
    (he : (h.createApp h.App s).1 = .error e) :
    bootstrap h s = (.error e, (h.createApp h.App s).2) :=
  andThen_of_error _ _ _ e he

theorem traced_loadModules (h : Host σ Comp Inst Plugin Err) (ps : List String) :
    (traced h).loadModules ps = logged (.loadModules ps) (h.loadModules ps) := rfl

theorem traced_evaluateModule (h : Host σ Comp Inst Plugin Err) (p : String) :
    (traced h).evaluateModule p = logged (.evaluateModule p) (h.evaluateModule p) := rfl

/-- A logged operation followed by a continuation. -/
theorem andThen_logged {α : Type} (c : Call Comp Inst Plugin) (m : Step σ Err α)
    (k : α → Step (σ × List (Event Comp Inst Plugin Err)) Err Unit) (s : σ)
    (log : List (Event Comp Inst Plugin Err)) :
    andThen (logged c m) k (s, log) =
      match (m s).1 with
      | .ok a => k a ((m s).2, log ++ [⟨c, none⟩])
      | .error e => (.error e, ((m s).2, log ++ [⟨c, some e⟩])) := by
  rcases outcome_cases (m s).1 with ⟨a, ha⟩ | ⟨e, he⟩
  · have ht : (logged c m (s, log)).1 = .ok a := ha
    rw [andThen_of_ok _ _ _ a ht, ha]
    simp [logged_eq, ha, failureOf_ok]
  · have ht : (logged c m (s, log)).1 = .error e := he
    rw [andThen_of_error _ _ _ e ht, he]
    simp [logged_eq, he, failureOf_error]

/-- Unfolding of a sequencing on the outcome of its first step. -/
theorem andThen_eq {α β : Type} (m : Step σ Err α) (f : α → Step σ Err β) (s : σ) :
    andThen m f s =
      match (m s).1 with
      | .ok a => f a (m s).2
      | .error e => (.error e, (m s).2) := by
  rcases outcome_cases (m s).1 with ⟨a, ha⟩ | ⟨e, he⟩
  · rw [andThen_of_ok _ _ _ a ha, ha]
  · rw [andThen_of_error _ _ _ e he, he]

/-- Sequencing preserves agreement up to a view. -/
theorem agree_andThen {D α β : Type} {view : σ → D} {m m' : Step σ Err α}
    {f g : α → Step σ Err β} {s t : σ} (hm : Agree view (m s) (m' t))
    (hf : ∀ a s' t', view s' = view t' → Agree view (f a s') (g a t')) :
    Agree view (andThen m f s) (andThen m' g t) := by
  obtain ⟨hres, hview⟩ := hm
  rw [andThen_eq, andThen_eq]
  rcases outcome_cases (m s).1 with ⟨a, ha⟩ | ⟨e, he⟩
  · rw [← hres, ha]
    exact hf a _ _ hview
  · rw [← hres, he]
    exact ⟨rfl, hview⟩

/-- A step that returns and keeps the view can be dropped in front of a
continuation that respects the view. -/
theorem agree_skip {D β : Type} {view : σ → D} {m : Step σ Err Unit}
    {f g : Step σ Err β} {s t : σ} (hm : (m s).1 = .ok () ∧ view (m s).2 = view s)
    (hst : view s = view t)
    (hf : ∀ s' t', view s' = view t' → Agree view (f s') (g t')) :
    Agree view (andThen m (fun _ => f) s) (g t) := by
  rw [andThen_of_ok _ _ _ () hm.1]
  exact hf _ _ (hm.2.trans hst)

/-- Instrumenting collaborators that respect a view gives collaborators that
respect the view paired with the log. -/
theorem respectsView_traced {D : Type} {h : Host σ Comp Inst Plugin Err} {view : σ → D}
    (hresp : RespectsView h view) :
    RespectsView (Bootstrap.traced h)
      (fun w : σ × List (Event Comp Inst Plugin Err) => (view w.1, w.2)) := by
  obtain ⟨hload, himp, hcreate, hmount⟩ := hresp
  refine ⟨fun ps w w' hw => ?_, fun p w w' hw => ?_, fun c w w' hw => ?_,
    fun i sel w w' hw => ?_⟩
  · simp only [Prod.mk.injEq] at hw
    obtain ⟨h1, h2⟩ := hload ps w.1 w'.1 hw.1
    simp only [Agree, Bootstrap.traced, logged_eq, h1, h2, hw.2, Prod.mk.injEq, and_self]
  · simp only [Prod.mk.injEq] at hw
    obtain ⟨h1, h2⟩ := himp p w.1 w'.1 hw.1
    simp only [Agree, Bootstrap.traced, logged_eq, h1, h2, hw.2, Prod.mk.injEq, and_self]
  · simp only [Prod.mk.injEq] at hw
    obtain ⟨h1, h2⟩ := hcreate c w.1 w'.1 hw.1
    simp only [Agree, Bootstrap.traced, logged_eq, h1, h2, hw.2, Prod.mk.injEq, and_self]
  · simp only [Prod.mk.injEq] at hw
    obtain ⟨h1, h2⟩ := hmount i sel w.1 w'.1 hw.1
    simp only [Agree, Bootstrap.traced, logged_eq, h1, h2, hw.2, Prod.mk.injEq, and_self]

/-- The module body respects a view that its collaborators respect. -/
theorem bootstrap_agree {D : Type} {h : Host σ Comp Inst Plugin Err} {view : σ → D}
    (hresp : RespectsView h view) (s t : σ) (hst : view s = view t) :
    Agree view (bootstrap h s) (bootstrap h t) :=
  agree_andThen (hresp.2.2.1 _ s t hst) fun i _ _ hv => hresp.2.2.2 i "#app" _ _ hv

/-- The module respects a view that its collaborators respect. -/
theorem main_agree {D : Type} {h : Host σ Comp Inst Plugin Err} {view : σ → D}
    (hresp : RespectsView h view) (s t : σ) (hst : view s = view t) :
    Agree view (main h s) (main h t) :=
  agree_andThen (hresp.1 _ s t hst) fun _ _ _ h0 =>
  agree_andThen (hresp.2.1 _ _ _ h0) fun _ _ _ h1 =>
  agree_andThen (hresp.2.1 _ _ _ h1) fun _ _ _ h2 =>
  agree_andThen (hresp.2.1 _ _ _ h2) fun _ _ _ h3 =>
  agree_andThen (hresp.2.1 _ _ _ h3) fun _ _ _ h4 =>
  bootstrap_agree hresp _ _ h4

end Lemmas

/-! ## The concrete framework satisfies the contracts -/

namespace Demo

theorem host_createApp_keeps (missing : List String) :
    CreateAppKeepsDocument (host missing) view :=
  fun _ _ => ⟨rfl, rfl⟩

theorem host_createApp_returns (missing : List String) :
    CreateAppReturns (host missing) view :=
  fun c d => ⟨⟨d.created, c⟩, rfl, rfl⟩

/-- Selecting after the update that `mount` performs: the first selected element
is updated, the others are as before. -/
theorem select_mountOn (i : Instance) (sel : String) (l : List Element) :
    (mountOn i sel l).filter (fun el => el.selector == sel) =
      match l.filter (fun el => el.selector == sel) with
      | [] => []
      | el :: rest => { el with contents := Tree.rendered i.root, apps := [i] } :: rest := by
  induction l with
  | nil => rfl
  | cons x l ih =>
    by_cases hx : (x.selector == sel) = true
    · simp only [mountOn, hx, if_true, List.filter_cons_of_pos]
    · simp only [mountOn, hx, if_false, Bool.false_eq_true, List.filter_cons, ih]

theorem host_mount_renders (missing : List String) : MountRenders (host missing) view := by
  intro i sel d hone _
  simp only [view] at hone
  obtain ⟨el, hel⟩ := List.length_eq_one.mp hone
  have hsel : Doc.select { d with elements := mountOn i sel d.elements } sel =
      [{ el with contents := .rendered i.root, apps := [i] }] := by
    have hm := select_mountOn i sel d.elements
    simp only [Doc.select] at hel ⊢
    rw [hm, hel]
  have hrun : (host missing).mount i sel d =
      (.ok (), { d with elements := mountOn i sel d.elements }) := rfl
  rw [hrun]
  simp only [view, hsel, List.head?_cons, Option.map_some', Option.getD_some, and_self]

theorem host_respects_structure (missing : List String) :
    RespectsView (host missing) structureOf := by
  refine ⟨fun ps d t hdt => ?_, fun p d t hdt => ?_, fun c d t hdt => ?_,
    fun i sel d t hdt => ?_⟩
  · simp only [structureOf, Prod.mk.injEq] at hdt
    simp only [Agree, host, loadModules, structureOf]
    split <;> simp [hdt.1, hdt.2]
  · simp only [structureOf, Prod.mk.injEq] at hdt
    simp only [Agree, host, evaluateModule, structureOf]
    split <;> simp [hdt.1, hdt.2]
  · simp only [structureOf, Prod.mk.injEq] at hdt
    simp [Agree, host, createApp, structureOf, hdt.1, hdt.2]
  · simp only [structureOf, Prod.mk.injEq] at hdt
    simp [Agree, host, mount, structureOf, hdt.1, hdt.2]

theorem host_assets_only_style : AssetsOnlyStyle (host []) structureOf := by
  refine ⟨fun d => ⟨rfl, rfl⟩, fun p hp d => ?_⟩
  simp only [assetSpecifiers, List.mem_cons, List.mem_singleton, List.not_mem_nil, or_false] at hp
  rcases hp with rfl | rfl <;> exact ⟨rfl, rfl⟩

end Demo

/-! ## The call sequence -/

section Claims

variable {σ Comp Inst Plugin Err Tree : Type}

/-- C7. Whenever `createApp(App)` returns an instance `i`, the calls that one
execution of the module body makes on the framework are exactly `createApp(App)`
followed by `mount('#app')` on `i`, each once and in this order; and in every
execution the calls are `createApp(App)` alone (when it throws) or this
two-call sequence, so that nothing else (no second `createApp`, no `unmount`, no
plugin registration) is ever invoked. -/
theorem bootstrap_call_sequence (h : Host σ Comp Inst Plugin Err) (s : σ) (i : Inst)
    (hret : (h.createApp h.App s).1 = .ok i) :
    (eventsOf bootstrap h s).map (·.call) = [.createApp h.App, .mount i "#app"] ∧
    (∀ t, (eventsOf bootstrap h t).map (·.call) = [.createApp h.App] ∨
      ∃ j, (h.createApp h.App t).1 = .ok j ∧
        (eventsOf bootstrap h t).map (·.call) = [.createApp h.App, .mount j "#app"]) := by
  refine ⟨?_, fun t => ?_⟩
  · rw [eventsOf_bootstrap, hret]
    rfl
  · rw [eventsOf_bootstrap]
    rcases outcome_cases (h.createApp h.App t).1 with ⟨j, hj⟩ | ⟨e, he⟩
    · exact Or.inr ⟨j, hj, by rw [hj]; rfl⟩
    · exact Or.inl (by rw [he]; rfl)

/-- C8. The module body has no guard: run a second time, in whatever state the
first run left (container occupied, absent, or anything else), it calls
`createApp(App)` again and then `mount('#app')` on the instance this second call
returned, and the outcome of the second run, returned value or thrown error and
final state, is exactly the outcome of that `mount`. -/
theorem bootstrap_second_run_is_unguarded (h : Host σ Comp Inst Plugin Err) (s : σ) (i : Inst)
    (hfresh : (h.createApp h.App (bootstrap h s).2).1 = .ok i) :
    bootstrap h (bootstrap h s).2 =
      h.mount i "#app" (h.createApp h.App (bootstrap h s).2).2 ∧
    secondRunEvents h s =
      [⟨.createApp h.App, none⟩,
       ⟨.mount i "#app", failureOf (h.mount i "#app" (h.createApp h.App (bootstrap h s).2).2).1⟩] := by
  refine ⟨bootstrap_of_returns h _ i hfresh, ?_⟩
  rw [secondRunEvents, eventsOf_bootstrap, hfresh]

/-- C4. Failures of the collaborators are the failures of the module, unmodified:
`main.js` ends with error `e` exactly when one of the calls it made (the import of
a module, `createApp`, `mount`) threw `e`; it returns exactly when none of its
calls threw; only the last call of an execution can have thrown, so nothing is
called after a failure (no recovery); and no call is made twice (no retry). -/
theorem main_propagates_failures (h : Host σ Comp Inst Plugin Err) (s : σ) :
    (∀ e, (main h s).1 = .error e ↔
      ∃ c, (⟨c, some e⟩ : Event Comp Inst Plugin Err) ∈ eventsOf main h s) ∧
    ((main h s).1 = .ok () ↔ ∀ ev ∈ eventsOf main h s, ev.failure = none) ∧
    (∀ ev ∈ (eventsOf main h s).dropLast, ev.failure = none) ∧
    ((eventsOf main h s).map (·.call)).Nodup := by
  simp only [eventsOf, main, traced_loadModules, traced_evaluateModule, andThen_logged,
    bootstrap_traced]
  simp only [andThen_eq, bootstrap]
  rcases h0 : (h.loadModules requestedModules s).1 with e0 | u0
  · simp [eq_comm]
  simp only []
  generalize (h.loadModules requestedModules s).2 = s0
  rcases h1 : (h.evaluateModule "vue" s0).1 with e1 | u1
  · simp [eq_comm]
  simp only []
  generalize (h.evaluateModule "vue" s0).2 = s1
  rcases h2 : (h.evaluateModule "./style.css" s1).1 with e2 | u2
  · simp [eq_comm]
  simp only []
  generalize (h.evaluateModule "./style.css" s1).2 = s2
  rcases h3 : (h.evaluateModule "./App.vue" s2).1 with e3 | u3
  · simp [eq_comm]
  simp only []
  generalize (h.evaluateModule "./App.vue" s2).2 = s3
  rcases h4 : (h.evaluateModule "@mdi/font/css/materialdesignicons.css" s3).1 with e4 | u4
  · simp [eq_comm]
  simp only []
  generalize (h.evaluateModule "@mdi/font/css/materialdesignicons.css" s3).2 = s4
  rcases h5 : (h.createApp h.App s4).1 with e5 | i
  · simp [eq_comm]
  simp only []
  generalize (h.createApp h.App s4).2 = s5
  rcases h6 : (h.mount i "#app" s5).1 with e6 | u6
  · simp [failureOf_error, eq_comm]
  · simp [failureOf_ok]

/-- C1. On a document where exactly one element matches `#app` and nothing is
mounted on it, with a framework whose `createApp` constructs an instance of the
given component without touching the document and whose `mount` renders the
instance into the designated element: the module body calls `createApp` on `App`,
mounts the instance that call returned with the selector `#app`, returns, and
leaves the contents of the element equal to the rendered tree of `App`, with that
instance attached. -/
theorem bootstrap_renders_root_component (h : Host σ Comp Inst Plugin Err)
    (v : DomView σ Comp Inst Tree) (hkeep : CreateAppKeepsDocument h v)
    (hret : CreateAppReturns h v) (hmount : MountRenders h v) (s : σ)
    (hone : v.matchCount s "#app" = 1) (hfree : v.attached s "#app" = []) :
    ∃ i, (h.createApp h.App s).1 = .ok i ∧ v.rootOf i = h.App ∧
      bootstrap h s = h.mount i "#app" (h.createApp h.App s).2 ∧
      (bootstrap h s).1 = .ok () ∧
      v.contents (bootstrap h s).2 "#app" = some (v.render h.App) ∧
      v.attached (bootstrap h s).2 "#app" = [i] ∧
      eventsOf bootstrap h s = [⟨.createApp h.App, none⟩, ⟨.mount i "#app", none⟩] := by
  obtain ⟨i, hi, hroot⟩ := hret h.App s
  obtain ⟨hcount, hatt⟩ := hkeep h.App s
  have hone1 : v.matchCount (h.createApp h.App s).2 "#app" = 1 := by rw [hcount]; exact hone
  have hfree1 : v.attached (h.createApp h.App s).2 "#app" = [] := by rw [hatt]; exact hfree
  obtain ⟨hok, hcont, hattached⟩ := hmount i "#app" _ hone1 hfree1
  have hb := bootstrap_of_returns h s i hi
  refine ⟨i, hi, hroot, hb, ?_, ?_, ?_, ?_⟩
  · rw [hb]; exact hok
  · rw [hb, hcont, hroot]
  · rw [hb]; exact hattached
  · rw [eventsOf_bootstrap, hi]
    simp only [hok, failureOf_ok]

/-- C6. Determinism: when the collaborators depend on the world through the
document state only (`view`), two executions started from states with the same
document state have the same outcome, leave the same document state, and make
the same calls with the same results, for the whole module and for its body.
With the identity as view the premise holds of every collaborator. -/
theorem main_deterministic {D : Type} (h : Host σ Comp Inst Plugin Err) (view : σ → D)
    (hresp : RespectsView h view) (s t : σ) (hst : view s = view t) :
    ((main h s).1 = (main h t).1 ∧ view (main h s).2 = view (main h t).2 ∧
      eventsOf main h s = eventsOf main h t) ∧
    ((bootstrap h s).1 = (bootstrap h t).1 ∧
      view (bootstrap h s).2 = view (bootstrap h t).2 ∧
      eventsOf bootstrap h s = eventsOf bootstrap h t) := by
  have hstart : (fun w : σ × List (Event Comp Inst Plugin Err) => (view w.1, w.2)) (s, []) =
      (fun w : σ × List (Event Comp Inst Plugin Err) => (view w.1, w.2)) (t, []) := by
    simp only [hst]
  have hm := main_agree hresp s t hst
  have hb := bootstrap_agree hresp s t hst
  have hmt := (main_agree (respectsView_traced hresp) (s, []) (t, []) hstart).2
  have hbt := (bootstrap_agree (respectsView_traced hresp) (s, []) (t, []) hstart).2
  simp only [Prod.mk.injEq] at hmt hbt
  exact ⟨⟨hm.1, hm.2, hmt.2⟩, ⟨hb.1, hb.2, hbt.2⟩⟩

/-- C2 (amended). With a framework whose `createApp` returns an instance without
touching the document: one execution of the module body, from any state, calls
`mount` exactly once, with no guard, and never calls `unmount`, so that no step
of the bootstrapper leads from `mounted` back to `unmounted`; and when exactly one
element matches `#app` with nothing mounted on it and the framework's `mount`
renders, the document is `unmounted` before the execution and `mounted` after
it, with exactly one instance attached to the container. -/
theorem bootstrap_lifecycle (h : Host σ Comp Inst Plugin Err)
    (v : DomView σ Comp Inst Tree) (hkeep : CreateAppKeepsDocument h v)
    (hret : CreateAppReturns h v) (hmount : MountRenders h v) (s : σ) :
    (eventsOf bootstrap h s).countP (fun ev => ev.call.isMount) = 1 ∧
    (∀ ev ∈ eventsOf bootstrap h s, ev.call.isUnmount = false) ∧
    (v.matchCount s "#app" = 1 → v.attached s "#app" = [] →
      v.phase s = .unmounted ∧ (bootstrap h s).1 = .ok () ∧
      v.phase (bootstrap h s).2 = .mounted ∧
      (v.attached (bootstrap h s).2 "#app").length = 1) := by
  obtain ⟨i, hi, -⟩ := hret h.App s
  have hev := eventsOf_bootstrap h s
  rw [hi] at hev
  simp only [] at hev
  refine ⟨?_, ?_, ?_⟩
  · rw [hev]
    simp [List.countP_cons, Call.isMount]
  · rw [hev]
    intro ev hmem
    simp only [List.mem_cons, List.mem_singleton, List.not_mem_nil, or_false] at hmem
    rcases hmem with rfl | rfl <;> rfl
  · intro hone hfree
    obtain ⟨hcount, hatt⟩ := hkeep h.App s
    have hone1 : v.matchCount (h.createApp h.App s).2 "#app" = 1 := by rw [hcount]; exact hone
    have hfree1 : v.attached (h.createApp h.App s).2 "#app" = [] := by rw [hatt]; exact hfree
    obtain ⟨hok, -, hattached⟩ := hmount i "#app" _ hone1 hfree1
    rw [bootstrap_of_returns h s i hi]
    refine ⟨?_, hok, ?_, ?_⟩
    · simp [DomView.phase, hfree]
    · simp [DomView.phase, hattached]
    · rw [hattached]; rfl

/-- C3 (amended). When no element matches `#app`, the module body adds no check
and no failure of its own: once `createApp` returned, `mount` is called on the
document without the container and the outcome of the body is the outcome of
that call; the body ends with error `e` exactly when one of its framework calls
threw `e`, and returns exactly when none threw; so with a framework whose `mount`
returns on a missing target without attaching anything, the body returns and
nothing is mounted. -/
theorem bootstrap_on_missing_container (h : Host σ Comp Inst Plugin Err)
    (v : DomView σ Comp Inst Tree) (hkeep : CreateAppKeepsDocument h v) (s : σ)
    (habsent : v.matchCount s "#app" = 0) :
    (∀ i, (h.createApp h.App s).1 = .ok i →
      v.matchCount (h.createApp h.App s).2 "#app" = 0 ∧
      bootstrap h s = h.mount i "#app" (h.createApp h.App s).2) ∧
    (∀ e, (bootstrap h s).1 = .error e ↔
      ∃ c, c.isFramework = true ∧
        (⟨c, some e⟩ : Event Comp Inst Plugin Err) ∈ eventsOf bootstrap h s) ∧
    ((bootstrap h s).1 = .ok () ↔ ∀ ev ∈ eventsOf bootstrap h s, ev.failure = none) ∧
    (∀ i, (h.createApp h.App s).1 = .ok i →
      (h.mount i "#app" (h.createApp h.App s).2).1 = .ok () →
      v.attached (h.mount i "#app" (h.createApp h.App s).2).2 "#app" =
        v.attached (h.createApp h.App s).2 "#app" →
      (bootstrap h s).1 = .ok () ∧
      v.attached (bootstrap h s).2 "#app" = v.attached s "#app") := by
  obtain ⟨hcount, hatt⟩ := hkeep h.App s
  refine ⟨fun i hi => ⟨by rw [hcount]; exact habsent, bootstrap_of_returns h s i hi⟩, ?_, ?_,
    fun i hi hok hsame => ?_⟩
  · rw [eventsOf_bootstrap]
    simp only [bootstrap, andThen_eq]
    rcases h5 : (h.createApp h.App s).1 with e5 | i
    · simp only [Except.error.injEq, List.mem_singleton, Event.mk.injEq, Option.some.injEq]
      intro e
      constructor
      · rintro rfl
        exact ⟨.createApp h.App, rfl, rfl, rfl⟩
      · rintro ⟨c, -, -, rfl⟩
        rfl
    simp only []
    rcases h6 : (h.mount i "#app" (h.createApp h.App s).2).1 with e6 | u6
    · simp only [failureOf_error, Except.error.injEq, List.mem_cons, List.mem_singleton,
        Event.mk.injEq, Option.some.injEq, List.not_mem_nil, or_false, reduceCtorEq, and_false,
        false_or]
      intro e
      constructor
      · rintro rfl
        exact ⟨.mount i "#app", rfl, rfl, rfl⟩
      · rintro ⟨c, -, -, rfl⟩
        rfl
    · simp [failureOf_ok]
  · rw [eventsOf_bootstrap]
    simp only [bootstrap, andThen_eq]
    rcases h5 : (h.createApp h.App s).1 with e5 | i
    · simp
    simp only []
    rcases h6 : (h.mount i "#app" (h.createApp h.App s).2).1 with e6 | u6
    · simp [failureOf_error]
    · simp [failureOf_ok]
  · rw [bootstrap_of_returns h s i hi]
    exact ⟨hok, by rw [hsame, hatt]⟩

/-- C5 (amended). Removing the two asset declarations does not prevent mounting:
when the assets load and only add to the style cascade (requesting and evaluating
them returns and leaves the structure of the document, `view`, as it was) and the
collaborators depend on the world through that structure only, the module without
the two declarations has the same outcome and leaves the same structure, so the
mounted tree is the same.  Having them fail to load does prevent mounting: when
the load phase fails, or the evaluation of one of the two assets throws, the
module ends with that error and neither `createApp` nor `mount` is called. -/
theorem main_without_assets_mounts_same_tree {D : Type} (h : Host σ Comp Inst Plugin Err)
    (view : σ → D) (s : σ) :
    (RespectsView h view → AssetsOnlyStyle h view →
      (main h s).1 = (mainWithoutAssets h s).1 ∧
      view (main h s).2 = view (mainWithoutAssets h s).2) ∧
    (∀ e, ((⟨.loadModules requestedModules, some e⟩ : Event Comp Inst Plugin Err) ∈
          eventsOf main h s ∨
        ∃ p ∈ assetSpecifiers,
          (⟨.evaluateModule p, some e⟩ : Event Comp Inst Plugin Err) ∈ eventsOf main h s) →
      (main h s).1 = .error e ∧ ∀ ev ∈ eventsOf main h s, ev.call.isFramework = false) := by
  constructor
  · intro hresp hassets
    have hcss := hassets.2 "./style.css" (by simp [assetSpecifiers])
    have hmdi := hassets.2 "@mdi/font/css/materialdesignicons.css" (by simp [assetSpecifiers])
    have hload : Agree view (h.loadModules requestedModules s)
        (h.loadModules ["vue", "./App.vue"] s) := hassets.1 s
    exact agree_andThen hload fun _ s0 t0 h0 =>
      agree_andThen (hresp.2.1 _ s0 t0 h0) fun _ s1 t1 h1 =>
      agree_skip (hcss s1) h1 fun s2 t2 h2 =>
      agree_andThen (hresp.2.1 _ s2 t2 h2) fun _ s3 t3 h3 =>
      agree_skip (hmdi s3) h3 fun s4 t4 h4 =>
      bootstrap_agree hresp s4 t4 h4
  · simp only [eventsOf, main, traced_loadModules, traced_evaluateModule, andThen_logged,
      bootstrap_traced]
    simp only [andThen_eq, bootstrap, assetSpecifiers]
    rcases h0 : (h.loadModules requestedModules s).1 with e0 | u0
    · simp [Call.isFramework]
    simp only []
    generalize (h.loadModules requestedModules s).2 = s0
    rcases h1 : (h.evaluateModule "vue" s0).1 with e1 | u1
    · simp [Call.isFramework]
    simp only []
    generalize (h.evaluateModule "vue" s0).2 = s1
    rcases h2 : (h.evaluateModule "./style.css" s1).1 with e2 | u2
    · simp [Call.isFramework]
    simp only []
    generalize (h.evaluateModule "./style.css" s1).2 = s2
    rcases h3 : (h.evaluateModule "./App.vue" s2).1 with e3 | u3
    · simp [Call.isFramework]
    simp only []
    generalize (h.evaluateModule "./App.vue" s2).2 = s3
    rcases h4 : (h.evaluateModule "@mdi/font/css/materialdesignicons.css" s3).1 with e4 | u4
    · simp [Call.isFramework]
    simp only []
    generalize (h.evaluateModule "@mdi/font/css/materialdesignicons.css" s3).2 = s4
    rcases h5 : (h.createApp h.App s4).1 with e5 | i
    · simp
    · simp

end Claims

/-! ## Concrete executions -/

section Executions

open Demo

/-- Witness of C1: the page with one empty `#app` element, the framework loaded. -/
theorem bootstrap_renders_root_component_witness :
    (Demo.view.matchCount Demo.page "#app" = 1 ∧ Demo.view.attached Demo.page "#app" = []) ∧
    ∃ i, ((Demo.host []).createApp (Demo.host []).App Demo.page).1 = .ok i ∧
      Demo.view.rootOf i = (Demo.host []).App ∧
      bootstrap (Demo.host []) Demo.page =
        (Demo.host []).mount i "#app" ((Demo.host []).createApp (Demo.host []).App Demo.page).2 ∧
      (bootstrap (Demo.host []) Demo.page).1 = .ok () ∧
      Demo.view.contents (bootstrap (Demo.host []) Demo.page).2 "#app" =
        some (Demo.view.render (Demo.host []).App) ∧
      Demo.view.attached (bootstrap (Demo.host []) Demo.page).2 "#app" = [i] ∧
      eventsOf bootstrap (Demo.host []) Demo.page =
        [⟨.createApp (Demo.host []).App, none⟩, ⟨.mount i "#app", none⟩] :=
  ⟨⟨by decide, by decide⟩,
    bootstrap_renders_root_component (Demo.host []) Demo.view (host_createApp_keeps [])
      (host_createApp_returns []) (host_mount_renders []) Demo.page (by decide) (by decide)⟩

/-- Counterexample to C2 as stated: on a page where nothing is mounted and no
element matches `#app`, one execution of the module body calls `mount` once and
returns, and the document is still `unmounted`: no instance is attached to the
container. -/
theorem bootstrap_without_container_stays_unmounted :
    ((∀ el ∈ Demo.pageWithoutContainer.elements, el.apps = []) ∧
      Demo.view.phase Demo.pageWithoutContainer = .unmounted) ∧
    (eventsOf bootstrap (Demo.host []) Demo.pageWithoutContainer).countP
      (fun ev => ev.call.isMount) = 1 ∧
    Demo.view.phase (bootstrap (Demo.host []) Demo.pageWithoutContainer).2 = .unmounted ∧
    (Demo.view.attached (bootstrap (Demo.host []) Demo.pageWithoutContainer).2 "#app").length
      ≠ 1 :=
  ⟨⟨by decide, by decide⟩, by decide, by decide, by decide⟩

/-- Witness of C2 (amended): the page with one empty `#app` element. -/
theorem bootstrap_lifecycle_witness :
    (Demo.view.matchCount Demo.page "#app" = 1 ∧ Demo.view.attached Demo.page "#app" = []) ∧
    (eventsOf bootstrap (Demo.host []) Demo.page).countP (fun ev => ev.call.isMount) = 1 ∧
    (∀ ev ∈ eventsOf bootstrap (Demo.host []) Demo.page, ev.call.isUnmount = false) ∧
    Demo.view.phase Demo.page = .unmounted ∧
    (bootstrap (Demo.host []) Demo.page).1 = .ok () ∧
    Demo.view.phase (bootstrap (Demo.host []) Demo.page).2 = .mounted ∧
    (Demo.view.attached (bootstrap (Demo.host []) Demo.page).2 "#app").length = 1 :=
  have hrun := bootstrap_lifecycle (Demo.host []) Demo.view (host_createApp_keeps [])
    (host_createApp_returns []) (host_mount_renders []) Demo.page
  ⟨⟨by decide, by decide⟩, hrun.1, hrun.2.1, hrun.2.2 (by decide) (by decide)⟩

/-- Counterexample to C3 as stated: on a page where no element matches `#app`,
with a framework whose `mount` returns on a missing target as vue's does, the
module body returns, none of its calls has thrown, the document is as it was and
nothing is mounted. -/
theorem bootstrap_returns_silently_without_container :
    Demo.view.matchCount Demo.pageWithoutContainer "#app" = 0 ∧
    (bootstrap (Demo.host []) Demo.pageWithoutContainer).1 = .ok () ∧
    (∀ ev ∈ eventsOf bootstrap (Demo.host []) Demo.pageWithoutContainer, ev.failure = none) ∧
    (bootstrap (Demo.host []) Demo.pageWithoutContainer).2.elements =
      Demo.pageWithoutContainer.elements ∧
    Demo.view.attached (bootstrap (Demo.host []) Demo.pageWithoutContainer).2 "#app" = [] :=
  ⟨by decide, rfl, by decide, by decide, by decide⟩

/-- Witness of C3 (amended): the page without the container; the outcome of the
body is the outcome of `mount` on the first instance, which returns. -/
theorem bootstrap_on_missing_container_witness :
    Demo.view.matchCount Demo.pageWithoutContainer "#app" = 0 ∧
    (bootstrap (Demo.host []) Demo.pageWithoutContainer =
      (Demo.host []).mount ⟨0, .App⟩ "#app"
        ((Demo.host []).createApp (Demo.host []).App Demo.pageWithoutContainer).2) ∧
    ((bootstrap (Demo.host []) Demo.pageWithoutContainer).1 = .ok () ∧
      Demo.view.attached (bootstrap (Demo.host []) Demo.pageWithoutContainer).2 "#app" =
        Demo.view.attached Demo.pageWithoutContainer "#app") :=
  have hrun := bootstrap_on_missing_container (Demo.host []) Demo.view (host_createApp_keeps [])
    Demo.pageWithoutContainer (by decide)
  ⟨by decide, (hrun.1 ⟨0, .App⟩ rfl).2, hrun.2.2.2 ⟨0, .App⟩ rfl rfl (by decide)⟩

/-- Counterexample to C5 as stated: with the same page, when the style sheet can
be loaded the root component is mounted, and when it cannot the module ends with
the loader's error, no module is evaluated, `createApp` and `mount` are never
called, and the container keeps its former contents with nothing attached. -/
theorem main_with_failing_stylesheet_mounts_nothing :
    ((main (Demo.host []) Demo.page).1 = .ok () ∧
      Demo.view.contents (main (Demo.host []) Demo.page).2 "#app" = some (.rendered .App)) ∧
    ((main (Demo.host ["./style.css"]) Demo.page).1 =
        .error (.moduleNotFound "./style.css") ∧
      (∀ ev ∈ eventsOf main (Demo.host ["./style.css"]) Demo.page,
        ev.call.isEvaluate = false ∧ ev.call.isFramework = false) ∧
      Demo.view.contents (main (Demo.host ["./style.css"]) Demo.page).2 "#app" =
        some .placeholder ∧
      Demo.view.attached (main (Demo.host ["./style.css"]) Demo.page).2 "#app" = []) :=
  ⟨⟨rfl, by decide⟩, ⟨rfl, by decide, by decide, by decide⟩⟩

/-- Witness of C5 (amended).  With both assets loading, on the page with one empty
`#app` element and with the document without its style cascade as view, the
module and the module without the asset declarations both return and leave the
same structure, in which the root component is mounted.  With the style sheet
impossible to load, the load phase fails, the module ends with its error and no
framework operation is called. -/
theorem main_without_assets_mounts_same_tree_witness :
    ((main (Demo.host []) Demo.page).1 = .ok () ∧
      Demo.view.contents (mainWithoutAssets (Demo.host []) Demo.page).2 "#app" =
        some (.rendered .App) ∧
      (main (Demo.host []) Demo.page).1 = (mainWithoutAssets (Demo.host []) Demo.page).1 ∧
      Demo.structureOf (main (Demo.host []) Demo.page).2 =
        Demo.structureOf (mainWithoutAssets (Demo.host []) Demo.page).2) ∧
    ((⟨.loadModules requestedModules, some (.moduleNotFound "./style.css")⟩ :
        Event Component Instance Unit Error) ∈
        eventsOf main (Demo.host ["./style.css"]) Demo.page ∧
      (main (Demo.host ["./style.css"]) Demo.page).1 =
        .error (.moduleNotFound "./style.css") ∧
      ∀ ev ∈ eventsOf main (Demo.host ["./style.css"]) Demo.page,
        ev.call.isFramework = false) :=
  have hload := (main_without_assets_mounts_same_tree (Demo.host []) Demo.structureOf
    Demo.page).1 (host_respects_structure []) host_assets_only_style
  have hfail := (main_without_assets_mounts_same_tree (Demo.host ["./style.css"])
    Demo.structureOf Demo.page).2 (.moduleNotFound "./style.css") (Or.inl (by decide))
  ⟨⟨rfl, by decide, hload.1, hload.2⟩, ⟨by decide, hfail.1, hfail.2⟩⟩

/-- Witness of C6: two pages with the same elements and different style
cascades. -/
theorem main_deterministic_witness :
    Demo.structureOf Demo.page = Demo.structureOf Demo.styledPage ∧
    (((main (Demo.host []) Demo.page).1 = (main (Demo.host []) Demo.styledPage).1 ∧
      Demo.structureOf (main (Demo.host []) Demo.page).2 =
        Demo.structureOf (main (Demo.host []) Demo.styledPage).2 ∧
      eventsOf main (Demo.host []) Demo.page = eventsOf main (Demo.host []) Demo.styledPage) ∧
    ((bootstrap (Demo.host []) Demo.page).1 = (bootstrap (Demo.host []) Demo.styledPage).1 ∧
      Demo.structureOf (bootstrap (Demo.host []) Demo.page).2 =
        Demo.structureOf (bootstrap (Demo.host []) Demo.styledPage).2 ∧
      eventsOf bootstrap (Demo.host []) Demo.page =
        eventsOf bootstrap (Demo.host []) Demo.styledPage)) :=
  ⟨by decide,
    main_deterministic (Demo.host []) Demo.structureOf (host_respects_structure [])
      Demo.page Demo.styledPage (by decide)⟩

/-- Witness of C7: the first instance created on the page. -/
theorem bootstrap_call_sequence_witness :
    ((Demo.host []).createApp (Demo.host []).App Demo.page).1 = .ok ⟨0, .App⟩ ∧
    ((eventsOf bootstrap (Demo.host []) Demo.page).map (·.call) =
      [.createApp (Demo.host []).App, .mount ⟨0, .App⟩ "#app"] ∧
    (∀ t, (eventsOf bootstrap (Demo.host []) t).map (·.call) =
        [.createApp (Demo.host []).App] ∨
      ∃ j, ((Demo.host []).createApp (Demo.host []).App t).1 = .ok j ∧
        (eventsOf bootstrap (Demo.host []) t).map (·.call) =
          [.createApp (Demo.host []).App, .mount j "#app"])) :=
  ⟨rfl, bootstrap_call_sequence (Demo.host []) Demo.page ⟨0, .App⟩ rfl⟩

/-- Witness of C8: a second run on the page on which the first run mounted; the
second `mount` is called on the fresh instance although the container is
occupied, and the second run ends as this `mount` does, with the fresh instance
mounted over the first one. -/
theorem bootstrap_second_run_is_unguarded_witness :
    (Demo.view.attached (bootstrap (Demo.host []) Demo.page).2 "#app" = [⟨0, .App⟩] ∧
      ((Demo.host []).createApp (Demo.host []).App
        (bootstrap (Demo.host []) Demo.page).2).1 = .ok ⟨1, .App⟩ ∧
      Demo.view.attached (bootstrap (Demo.host []) (bootstrap (Demo.host []) Demo.page).2).2
        "#app" = [⟨1, .App⟩]) ∧
    (bootstrap (Demo.host []) (bootstrap (Demo.host []) Demo.page).2 =
      (Demo.host []).mount ⟨1, .App⟩ "#app"
        ((Demo.host []).createApp (Demo.host []).App (bootstrap (Demo.host []) Demo.page).2).2 ∧
    secondRunEvents (Demo.host []) Demo.page =
      [⟨.createApp (Demo.host []).App, none⟩,
       ⟨.mount ⟨1, .App⟩ "#app", failureOf ((Demo.host []).mount ⟨1, .App⟩ "#app"
        ((Demo.host []).createApp (Demo.host []).App
          (bootstrap (Demo.host []) Demo.page).2).2).1⟩]) :=
  ⟨⟨by decide, rfl, by decide⟩,
    bootstrap_second_run_is_unguarded (Demo.host []) Demo.page ⟨1, .App⟩ rfl⟩

end Executions

end Bootstrap
